import Mathlib

/-!
Verification development for the photobooth capture-session application
(`src/app/page.tsx`).  The React component is embedded shallowly: the
`useState` hooks become fields of `AppState`, refs (`streamRef`,
`countdownTimerRef`, `flashTimerRef`, `videoRef.srcObject`) become further
fields, and each callback (`startCamera`, `stopCamera`, `capturePhoto`,
`startCountdown`, `resetSession`, `exportPhotos`) becomes a pure state
transformer.  Browser effects (wall clock, camera streams, canvas drawing,
image decoding, downloads) are threaded in as explicit parameters and
recorded in explicit output lists.
-/

namespace Photobooth

/-- A media stream, modelled as the list of the kinds of its tracks
(`stream.getTracks()` with `track.kind`). -/
abbrev MediaStream := List String

/-- interface Photo: id, dataUrl, timestamp (the timestamp modelled as the
millisecond clock value `Date.now()` of the capture instant; the id is that
value rendered in decimal, `Date.now().toString()`). -/
structure Photo where
  id : String
  dataUrl : String
  timestamp : Nat
deriving DecidableEq

/-- interface Filter: name, label, style, gradient. -/
structure Filter where
  name : String
  label : String
  style : String
  gradient : String
deriving DecidableEq

/-- The FILTERS constant of the source. -/
def FILTERS : List Filter :=
  [ { name := "none", label := "Original", style := "",
      gradient := "from-gray-400 to-gray-600" },
    { name := "grayscale", label := "B&W", style := "grayscale(100%)",
      gradient := "from-gray-800 to-gray-900" },
    { name := "sepia", label := "Vintage", style := "sepia(100%)",
      gradient := "from-amber-600 to-orange-700" },
    { name := "blur", label := "Soft", style := "blur(1px)",
      gradient := "from-blue-400 to-purple-500" },
    { name := "contrast", label := "Pop", style := "contrast(120%) saturate(130%)",
      gradient := "from-pink-500 to-rose-600" } ]

/-- The component state: every `useState` hook plus the mutable refs.
`countdownTimer` is `countdownTimerRef`: `some c` means an interval timer is
live and the local `count` variable of its callback currently holds `c`;
`none` means no timer.  `flashTimer` is whether `flashTimerRef` holds a
pending timeout.  `videoSrc` is `videoRef.current.srcObject` (the `<video>`
element itself is always rendered by the component). -/
structure AppState where
  isStreaming : Bool
  photos : List Photo
  maxPhotos : Nat
  countdown : Nat
  isCapturing : Bool
  showSettings : Bool
  currentFilter : String
  isSessionActive : Bool
  flashEffect : Bool
  isLoading : Bool
  error : String
  debugInfo : List String
  videoSrc : Option MediaStream
  streamRef : Option MediaStream
  countdownTimer : Option Nat
  flashTimer : Bool
deriving DecidableEq

/-- The text of one debug-log entry: a timestamp rendering followed by the
message, as in the template string of `addDebugInfo`. -/
def debugEntry (now : Nat) (info : String) : String :=
  toString now ++ ": " ++ info

/-- addDebugInfo: `prev.slice(-9)` (the nine most recent entries) with the
new entry appended, so the log never exceeds ten entries. -/
def addDebugInfo (now : Nat) (info : String) (log : List String) : List String :=
  log.drop (log.length - 9) ++ [debugEntry now info]

/-- Append a list of messages to the debug log one `addDebugInfo` call at a
time. -/
def addAllDebug (now : Nat) (msgs : List String) (log : List String) : List String :=
  msgs.foldl (fun acc m => addDebugInfo now m acc) log

/-- stopCamera: log, stop and log every track of the held stream, drop the
stream ref, detach the video sink, clear the streaming flag and the error
slot. -/
def stopCamera (now : Nat) (s : AppState) : AppState :=
  let s := { s with debugInfo := addDebugInfo now "Stopping camera..." s.debugInfo }
  let s :=
    match s.streamRef with
    | some tracks =>
        { s with
          debugInfo := tracks.foldl
            (fun log k => addDebugInfo now ("Stopped track: " ++ k) log) s.debugInfo,
          streamRef := none }
    | none => s
  { s with videoSrc := none, isStreaming := false, error := "" }

/-- The capture-time environment: the clock, whether the video and canvas
elements are mounted, whether `getContext` yields a context, whether
`drawImage` succeeds, and the encoded frame `canvas.toDataURL` produces
(the active filter style having been applied to the drawing context). -/
structure CaptureEnv where
  now : Nat
  videoPresent : Bool
  canvasPresent : Bool
  ctxOk : Bool
  drawOk : Bool
  frameData : String

/-- The value assigned to `ctx.filter`: the style of the active filter, with
the empty style (and a missing filter) replaced by "none" as the JS
`currentFilterObj?.style || "none"` does. -/
def ctxFilterOf (currentFilter : String) : String :=
  match FILTERS.find? (fun f => f.name == currentFilter) with
  | some f => if f.style = "" then "none" else f.style
  | none => "none"

/-- capturePhoto: bail out unless both elements are mounted and the photo
count is below the cap; otherwise flash, draw the current frame with the
active filter and append a new Photo stamped with the current clock. -/
def capturePhoto (env : CaptureEnv) (s : AppState) : AppState :=
  if env.videoPresent = false ∨ env.canvasPresent = false
      ∨ s.photos.length ≥ s.maxPhotos then s
  else
    let s := { s with debugInfo := addDebugInfo env.now "Capturing photo..." s.debugInfo }
    let s := { s with flashEffect := true, flashTimer := true }
    if env.ctxOk = false then
      { s with debugInfo := addDebugInfo env.now "Canvas context not available" s.debugInfo }
    else
      let _filterStyle := ctxFilterOf s.currentFilter
      if env.drawOk then
        let newPhoto : Photo :=
          { id := toString env.now, dataUrl := env.frameData, timestamp := env.now }
        { s with
          photos := s.photos ++ [newPhoto],
          debugInfo := addDebugInfo env.now
            ("Photo captured successfully (" ++ toString (s.photos.length + 1)
              ++ "/" ++ toString s.maxPhotos ++ ")") s.debugInfo }
      else
        { s with
          debugInfo := addDebugInfo env.now "Photo capture failed: error" s.debugInfo,
          error := "Failed to capture photo. Please try again." }

/-- startCountdown: bail out at the photo cap; otherwise set the capturing
flag, set the countdown to 3, clear any previous interval timer and install
a fresh one whose local count is 3. -/
def startCountdown (s : AppState) : AppState :=
  if s.photos.length ≥ s.maxPhotos then s
  else
    { s with isCapturing := true, countdown := 3, countdownTimer := some 3 }

/-- A press of the Take Photo button: its onClick is `startCountdown` and it
is disabled while `isCapturing || photos.length >= maxPhotos`. -/
def takePhotoClick (s : AppState) : AppState :=
  if s.isCapturing = true ∨ s.photos.length ≥ s.maxPhotos then s
  else startCountdown s

/-- One firing of the countdown interval: decrement the local count, publish
it, and at zero clear the timer, capture, and reset countdown and capturing
flag. -/
def tickStep (env : CaptureEnv) (s : AppState) : AppState :=
  match s.countdownTimer with
  | none => s
  | some c =>
      let count := c - 1
      let s1 := { s with countdown := count }
      if count = 0 then
        let s2 := { s1 with countdownTimer := none }
        let s3 := capturePhoto env s2
        { s3 with countdown := 0, isCapturing := false }
      else
        { s1 with countdownTimer := some count }

/-- resetSession: log, clear photos, session, capturing, countdown, settings
and error, invalidate both timers, then stopCamera. -/
def resetSession (now : Nat) (s : AppState) : AppState :=
  let s := { s with debugInfo := addDebugInfo now "Resetting session..." s.debugInfo }
  let s := { s with
    photos := [], isSessionActive := false, isCapturing := false,
    countdown := 0, showSettings := false, error := "" }
  let s := { s with countdownTimer := none, flashTimer := false }
  stopCamera now s

/-- The session-level events a running session processes: presses of the
Take Photo button, firings of the countdown interval, and presses of the
reset button. -/
inductive Ev where
  | click : Ev
  | tick : CaptureEnv → Ev
  | reset : Nat → Ev

/-- One event step. -/
def step (e : Ev) (s : AppState) : AppState :=
  match e with
  | .click => takePhotoClick s
  | .tick env => tickStep env s
  | .reset now => resetSession now s

/-- Run a sequence of events. -/
def run (evs : List Ev) (s : AppState) : AppState :=
  evs.foldl (fun s e => step e s) s

/-- The initial component state: the initial value of every useState hook
and every ref. -/
def initialState : AppState :=
  { isStreaming := false, photos := [], maxPhotos := 4, countdown := 0,
    isCapturing := false, showSettings := false, currentFilter := "none",
    isSessionActive := false, flashEffect := false, isLoading := false,
    error := "", debugInfo := [], videoSrc := none, streamRef := none,
    countdownTimer := none, flashTimer := false }

/-! ### Basic step lemmas -/

theorem run_cons (e : Ev) (evs : List Ev) (s : AppState) :
    run (e :: evs) s = run evs (step e s) := rfl

theorem capturePhoto_maxPhotos (env : CaptureEnv) (s : AppState) :
    (capturePhoto env s).maxPhotos = s.maxPhotos := by
  simp only [capturePhoto]
  split_ifs <;> rfl

theorem capturePhoto_photos_le (env : CaptureEnv) (s : AppState)
    (h : s.photos.length ≤ s.maxPhotos) :
    (capturePhoto env s).photos.length ≤ s.maxPhotos := by
  simp only [capturePhoto]
  split_ifs with h1 h2 h3 <;> simp_all <;> omega

theorem step_maxPhotos (e : Ev) (s : AppState) :
    (step e s).maxPhotos = s.maxPhotos := by
  cases e with
  | click =>
      simp only [step, takePhotoClick, startCountdown]
      split_ifs <;> rfl
  | tick env =>
      simp only [step, tickStep]
      cases s.countdownTimer with
      | none => rfl
      | some c =>
          simp only []
          split_ifs with h
          · exact capturePhoto_maxPhotos _ _
          · rfl
  | reset now =>
      simp only [step, resetSession, stopCamera]
      cases h : ({ s with
        photos := [], isSessionActive := false, isCapturing := false,
        countdown := 0, showSettings := false, error := "",
        debugInfo := addDebugInfo now "Resetting session..." s.debugInfo,
        countdownTimer := none, flashTimer := false } : AppState).streamRef <;> simp

theorem step_photos_le (e : Ev) (s : AppState)
    (h : s.photos.length ≤ s.maxPhotos) :
    (step e s).photos.length ≤ s.maxPhotos := by
  cases e with
  | click =>
      simp only [step, takePhotoClick, startCountdown]
      split_ifs <;> simp_all
  | tick env =>
      simp only [step, tickStep]
      cases s.countdownTimer with
      | none => exact h
      | some c =>
          simp only []
          split_ifs with h1
          · exact capturePhoto_photos_le _ _ h
          · exact h
  | reset now =>
      simp only [step, resetSession, stopCamera]
      cases hs : ({ s with
        photos := [], isSessionActive := false, isCapturing := false,
        countdown := 0, showSettings := false, error := "",
        debugInfo := addDebugInfo now "Resetting session..." s.debugInfo,
        countdownTimer := none, flashTimer := false } : AppState).streamRef <;> simp

theorem run_maxPhotos (evs : List Ev) (s : AppState) :
    (run evs s).maxPhotos = s.maxPhotos := by
  induction evs generalizing s with
  | nil => rfl
  | cons e evs ih => rw [run_cons, ih, step_maxPhotos]

theorem run_photos_le (evs : List Ev) (s : AppState)
    (h : s.photos.length ≤ s.maxPhotos) :
    (run evs s).photos.length ≤ s.maxPhotos := by
  induction evs generalizing s with
  | nil => exact h
  | cons e evs ih =>
      rw [run_cons]
      have := ih (step e s) (by rw [step_maxPhotos]; exact step_photos_le e s h)
      rwa [step_maxPhotos] at this

theorem click_noop_at_cap (s : AppState) (h : s.photos.length ≥ s.maxPhotos) :
    step .click s = s := by
  simp only [step, takePhotoClick]
  rw [if_pos (Or.inr h)]

/-! ### C1 -/

/-- C1: for every configured target count N in 1..10 and every sequence of
capture requests, countdown ticks and resets, the photo sequence never grows
beyond N, and a capture request issued once the count has reached N leaves
the state (in particular the photo sequence) unchanged. -/
theorem photo_cap_invariant (evs : List Ev) (s : AppState)
    (hN : 1 ≤ s.maxPhotos ∧ s.maxPhotos ≤ 10)
    (h0 : s.photos.length ≤ s.maxPhotos) :
    (run evs s).photos.length ≤ s.maxPhotos ∧
      ((run evs s).photos.length ≥ s.maxPhotos →
        step .click (run evs s) = run evs s) := by
  refine ⟨run_photos_le evs s h0, fun hcap => ?_⟩
  exact click_noop_at_cap _ (by rw [run_maxPhotos]; exact hcap)

/-- Witness for C1 at the initial state and a single capture request. -/
theorem photo_cap_invariant_witness :
    (run [Ev.click] initialState).photos.length ≤ initialState.maxPhotos ∧
      ((run [Ev.click] initialState).photos.length ≥ initialState.maxPhotos →
        step .click (run [Ev.click] initialState) = run [Ev.click] initialState) :=
  photo_cap_invariant [Ev.click] initialState (by decide) (by decide)

/-! ### C2 -/

/-- C2: while a countdown is in flight (the capturing flag is set, which
holds exactly from startCountdown until the final tick), a press of the
Take Photo button is ignored: the run over any subsequent events, the timer
and every tick are exactly those of the run without the press, so the
countdown proceeds unchanged and triggers exactly one capture. -/
theorem capture_during_countdown_noop (evs : List Ev) (s : AppState)
    (h : s.isCapturing = true) :
    run (Ev.click :: evs) s = run evs s := by
  rw [run_cons]
  simp only [step, takePhotoClick]
  rw [if_pos (Or.inl h)]

/-- Witness for C2 at a state whose countdown is in flight. -/
theorem capture_during_countdown_noop_witness :
    run (Ev.click :: [])
        { initialState with isCapturing := true, countdown := 2,
                            countdownTimer := some 2 } =
      run []
        { initialState with isCapturing := true, countdown := 2,
                            countdownTimer := some 2 } :=
  capture_during_countdown_noop []
    { initialState with isCapturing := true, countdown := 2,
                        countdownTimer := some 2 } rfl

/-! ### C3 -/

/-- A state in which the user selected the sepia filter. -/
def sepiaState : AppState :=
  { initialState with currentFilter := "sepia", isSessionActive := true }

/-- C3 counterexample: resetting a session whose active filter is "sepia"
does not return the filter selection to the default "none" descriptor;
resetSession never touches currentFilter. -/
theorem reset_keeps_filter_counterexample :
    (resetSession 0 sepiaState).currentFilter = "sepia" ∧
      ¬ (resetSession 0 sepiaState).currentFilter = "none" := by
  constructor <;> decide

/-- C3 amended: resetting the session, from every state, returns the system
to Idle with an empty photo sequence, the countdown at 0, the capturing
flag cleared, settings hidden, the error slot cleared, both timers
invalidated, and the device handle released (a further release keeps it
released, so release is idempotent); the active filter selection, however,
is left unchanged rather than reset to the default descriptor. -/
theorem reset_returns_idle (now : Nat) (s : AppState) :
    (resetSession now s).photos = [] ∧
    (resetSession now s).isSessionActive = false ∧
    (resetSession now s).isCapturing = false ∧
    (resetSession now s).countdown = 0 ∧
    (resetSession now s).showSettings = false ∧
    (resetSession now s).error = "" ∧
    (resetSession now s).countdownTimer = none ∧
    (resetSession now s).flashTimer = false ∧
    (resetSession now s).streamRef = none ∧
    (resetSession now s).isStreaming = false ∧
    (resetSession now s).videoSrc = none ∧
    (resetSession now s).currentFilter = s.currentFilter ∧
    (stopCamera now (resetSession now s)).streamRef = none := by
  simp only [resetSession, stopCamera]
  cases s.streamRef <;> simp

/-! ### C9 -/

/-- The camera-facing observable state: the held stream, the streaming
flag, the user-visible error slot, and the sink attachment.  The rolling
debug log is a diagnostics channel and not part of this observation. -/
structure CameraObs where
  streamRef : Option MediaStream
  isStreaming : Bool
  error : String
  videoSrc : Option MediaStream
deriving DecidableEq

/-- Project the camera-facing observable state. -/
def cameraObs (s : AppState) : CameraObs :=
  { streamRef := s.streamRef, isStreaming := s.isStreaming,
    error := s.error, videoSrc := s.videoSrc }

/-- C9: releasing the device handle is idempotent on the camera-facing
state: a second stopCamera (release of an already-released handle, or a
release when none was ever acquired) is a no-op that raises no error and
leaves the camera state identical to a single release; indeed a single
release already yields the released state from every starting state. -/
theorem stop_camera_idempotent (n1 n2 : Nat) (s : AppState) :
    cameraObs (stopCamera n2 (stopCamera n1 s)) = cameraObs (stopCamera n1 s) ∧
      cameraObs (stopCamera n1 s) =
        { streamRef := none, isStreaming := false, error := "", videoSrc := none } := by
  simp only [stopCamera, cameraObs]
  cases s.streamRef <;> simp

/-! ### C10 -/

theorem addDebugInfo_eq_drop (now : Nat) (info : String) (log : List String) :
    addDebugInfo now info log =
      (log ++ [debugEntry now info]).drop (log.length - 9) := by
  rw [addDebugInfo, List.drop_append_eq_append_drop]
  have h : log.length - 9 - log.length = 0 := by omega
  rw [h]
  rfl

theorem addDebugInfo_length (now : Nat) (info : String) (log : List String) :
    (addDebugInfo now info log).length = min (log.length + 1) 10 := by
  simp only [addDebugInfo, List.length_append, List.length_drop, List.length_cons,
    List.length_nil]
  omega

theorem addAllDebug_cons (now : Nat) (m : String) (rest : List String)
    (log : List String) :
    addAllDebug now (m :: rest) log = addAllDebug now rest (addDebugInfo now m log) :=
  rfl

theorem addAllDebug_suffix (now : Nat) (msgs log : List String) :
    ∃ k, addAllDebug now msgs log = (log ++ msgs.map (debugEntry now)).drop k := by
  induction msgs generalizing log with
  | nil => exact ⟨0, by simp [addAllDebug]⟩
  | cons m rest ih =>
      rw [addAllDebug_cons]
      obtain ⟨k, hk⟩ := ih (addDebugInfo now m log)
      refine ⟨log.length - 9 + k, ?_⟩
      rw [hk, addDebugInfo_eq_drop, List.map_cons]
      have hle : log.length - 9 ≤ (log ++ [debugEntry now m]).length := by
        simp only [List.length_append, List.length_cons, List.length_nil]
        omega
      rw [← List.drop_append_of_le_length hle, List.drop_drop]
      have hassoc :
          (log ++ [debugEntry now m]) ++ rest.map (debugEntry now) =
            log ++ (debugEntry now m :: rest.map (debugEntry now)) := by
        simp
      rw [hassoc]

theorem addAllDebug_length (now : Nat) (m : String) (rest log : List String) :
    (addAllDebug now (m :: rest) log).length =
      min (log.length + (m :: rest).length) 10 := by
  induction rest generalizing m log with
  | nil =>
      rw [addAllDebug_cons]
      simp only [addAllDebug, List.foldl_nil, addDebugInfo_length, List.length_cons,
        List.length_nil]
  | cons m2 rest ih =>
      rw [addAllDebug_cons, ih]
      simp only [addDebugInfo_length, List.length_cons]
      omega

/-- The raw messages resetSession feeds to the debug log, in order: its own
entry, the stopCamera entry, and one entry per stopped track. -/
def resetMsgs (stream : Option MediaStream) : List String :=
  "Resetting session..." :: "Stopping camera..." ::
    (match stream with
     | some tracks => tracks.map (fun k => "Stopped track: " ++ k)
     | none => [])

theorem resetSession_debugInfo (now : Nat) (s : AppState) :
    (resetSession now s).debugInfo =
      addAllDebug now (resetMsgs s.streamRef) s.debugInfo := by
  simp only [resetSession, stopCamera, resetMsgs]
  cases s.streamRef with
  | none => rfl
  | some tracks =>
      simp only [addAllDebug, List.foldl_cons, List.foldl_map]

/-- A pre-reset state whose rolling debug log is at its ten-entry bound. -/
def tenLogState : AppState :=
  { initialState with
    debugInfo := ["e0", "e1", "e2", "e3", "e4", "e5", "e6", "e7", "e8", "e9"] }

/-- C10 counterexample: when the rolling log already holds its ten-entry
bound, resetting drops the oldest pre-reset entry ("e0"), so the log does
not retain its pre-reset entries; moreover the reset appends two entries
(its own and the stopCamera one), not a single entry. -/
theorem reset_drops_oldest_log_counterexample :
    "e0" ∈ tenLogState.debugInfo ∧
      "e0" ∉ (resetSession 5 tenLogState).debugInfo ∧
      debugEntry 5 "Resetting session..." ∈ (resetSession 5 tenLogState).debugInfo ∧
      debugEntry 5 "Stopping camera..." ∈ (resetSession 5 tenLogState).debugInfo := by
  refine ⟨by decide, by decide, by decide, by decide⟩

/-- C10 amended: resetting the session leaves the configured target photo
count (maxPhotos) unchanged, and the debug log becomes a suffix of the
pre-reset log followed by the reset log entries ("Resetting session...",
"Stopping camera...", and one per stopped track) rendered with the reset
timestamp, trimmed to the rolling ten-entry bound — so pre-reset entries
are retained only as the bound allows, with the oldest dropped first; the
photos, countdown, capturing flag, settings visibility and error slot are
cleared. -/
theorem reset_frame_effect (now : Nat) (s : AppState) :
    (resetSession now s).maxPhotos = s.maxPhotos ∧
    (∃ k, (resetSession now s).debugInfo =
        (s.debugInfo ++ (resetMsgs s.streamRef).map (debugEntry now)).drop k) ∧
    (resetSession now s).debugInfo.length =
      min (s.debugInfo.length + (resetMsgs s.streamRef).length) 10 ∧
    (resetSession now s).photos = [] ∧
    (resetSession now s).countdown = 0 ∧
    (resetSession now s).isCapturing = false ∧
    (resetSession now s).showSettings = false ∧
    (resetSession now s).error = "" := by
  refine ⟨?_, ?_, ?_, ?_, ?_, ?_, ?_, ?_⟩
  · simp only [resetSession, stopCamera]
    cases s.streamRef <;> simp
  · rw [resetSession_debugInfo]
    exact addAllDebug_suffix now (resetMsgs s.streamRef) s.debugInfo
  · rw [resetSession_debugInfo]
    simp only [resetMsgs]
    rw [addAllDebug_length]
  all_goals
    simp only [resetSession, stopCamera]
    try (cases s.streamRef <;> simp)

/-! ### Export pipeline (exportPhotos) -/

/-- The environment of one exportPhotos call: whether the export canvas
yields a 2d context, how the decode of each photo index settles (true:
onload fires; false: onerror fires), whether drawImage succeeds for each
index, whether building and clicking the collage download link succeeds,
and whether the individual download of each index throws. -/
structure ExportEnv where
  ctxOk : Bool
  outcome : Nat → Bool
  drawOk : Nat → Bool
  exportOk : Bool
  failDownload : Nat → Bool

/-- photosPerRow of the collage layout. -/
def photosPerRow : Nat := 2

/-- photoSize (the square cell edge) of the collage layout. -/
def photoSize : Nat := 300

/-- margin of the collage layout. -/
def exportMargin : Nat := 20

/-- photosPerRow * photoSize + (photosPerRow + 1) * margin. -/
def collageWidth : Nat :=
  photosPerRow * photoSize + (photosPerRow + 1) * exportMargin

/-- Math.ceil(n / photosPerRow) * (photoSize + margin) + margin, the ceiling
division written as (n + photosPerRow - 1) / photosPerRow over Nat. -/
def collageHeight (n : Nat) : Nat :=
  (n + photosPerRow - 1) / photosPerRow * (photoSize + exportMargin) + exportMargin

/-- x = margin + col * (photoSize + margin) with col = index % photosPerRow. -/
def cellX (i : Nat) : Nat :=
  exportMargin + (i % photosPerRow) * (photoSize + exportMargin)

/-- y = margin + row * (photoSize + margin) with row = floor(index / photosPerRow). -/
def cellY (i : Nat) : Nat :=
  exportMargin + (i / photosPerRow) * (photoSize + exportMargin)

/-- The observable trace of one collage export: the export canvas
dimensions, the running loadedCount, the drawImage calls (index and
coordinates), the download triggers (filenames), and the messages fed to
the debug log. -/
structure CollageRun where
  width : Nat
  height : Nat
  loadedCount : Nat
  draws : List (Nat × Nat × Nat)
  downloads : List String
  log : List String
deriving DecidableEq

/-- The collage filename, photobooth-session-<timestamp>.png. -/
def collageName (now : Nat) : String :=
  "photobooth-session-" ++ toString now ++ ".png"

/-- The settling of the decode of photo index i (img.onload when the decode
succeeds, img.onerror when it fails), exactly as the two handlers of the
source behave: onload draws the cell, increments loadedCount and, when it
reaches the total, triggers the single download; onerror logs, increments
loadedCount and, when it reaches the total, only logs completion. -/
def collageSettle (now total : Nat) (env : ExportEnv) (r : CollageRun) (i : Nat) :
    CollageRun :=
  if env.outcome i then
    if env.drawOk i then
      let r := { r with
        draws := r.draws ++ [(i, cellX i, cellY i)],
        loadedCount := r.loadedCount + 1 }
      if r.loadedCount = total then
        if env.exportOk then
          { r with
            downloads := r.downloads ++ [collageName now],
            log := r.log ++ ["Photo collage exported successfully"] }
        else
          { r with log := r.log ++ ["Export error: error"] }
      else r
    else
      { r with log := r.log ++ ["Draw error: error"] }
  else
    let r := { r with
      log := r.log ++ ["Image load error for photo " ++ toString i],
      loadedCount := r.loadedCount + 1 }
    if r.loadedCount = total then
      { r with log := r.log ++ ["Completed with errors"] }
    else r

/-- The canvas state before any decode settles: computed dimensions, zero
loadedCount, nothing drawn, nothing downloaded. -/
def collageInit (n : Nat) : CollageRun :=
  { width := collageWidth, height := collageHeight n, loadedCount := 0,
    draws := [], downloads := [], log := [] }

/-- The collage branch of exportPhotos, run over the sequence in which the
per-photo decodes settle (each index settles exactly once, so a complete
run is a permutation of the photo indices). -/
def exportCollage (now : Nat) (env : ExportEnv) (photos : List Photo)
    (order : List Nat) : CollageRun :=
  order.foldl (collageSettle now photos.length env) (collageInit photos.length)

/-- The observable trace of one individual export: the download triggers
(filename and href) and the messages fed to the debug log. -/
structure IndivRun where
  downloads : List (String × String)
  log : List String
deriving DecidableEq

/-- The individual filename, photo-<index + 1>.<format>. -/
def indivName (i : Nat) (format : String) : String :=
  "photo-" ++ toString (i + 1) ++ "." ++ format

/-- The href of one individual download: the stored dataUrl, re-tagged
image/jpeg for the jpeg format. -/
def indivHref (format : String) (p : Photo) : String :=
  if format = "jpeg" then p.dataUrl.replace "image/png" "image/jpeg"
  else p.dataUrl

/-- One iteration of the photos.forEach loop of the non-pdf branch: inside
its own try/catch, so a failing download only logs its own error and a
succeeding one triggers its named download. -/
def indivStep (format : String) (env : ExportEnv) (r : IndivRun) (p : Nat × Photo) :
    IndivRun :=
  if env.failDownload p.1 then
    { r with log := r.log ++ ["Download error for photo " ++ toString p.1 ++ ": error"] }
  else
    { r with downloads := r.downloads ++ [(indivName p.1 format, indivHref format p.2)] }

/-- The non-pdf branch of exportPhotos: photos.forEach over index and photo,
then the summary log entry. -/
def exportIndividual (photos : List Photo) (format : String) (env : ExportEnv) :
    IndivRun :=
  let r := photos.enum.foldl (indivStep format env) { downloads := [], log := [] }
  { r with log := r.log ++ [toString photos.length ++ " photos exported as " ++ format] }

/-- The outcome of an exportPhotos call. -/
inductive ExportResult where
  | noPhotos : ExportResult
  | noContext : ExportResult
  | collage : CollageRun → ExportResult
  | individual : IndivRun → ExportResult
deriving DecidableEq

/-- exportPhotos: bail out on an empty photo list; the pdf format builds
the collage (bailing out if the export canvas yields no context); any other
format downloads each photo individually. -/
def exportPhotos (now : Nat) (env : ExportEnv) (photos : List Photo)
    (format : String) (order : List Nat) : ExportResult :=
  if photos.length = 0 then .noPhotos
  else if format = "pdf" then
    if env.ctxOk = false then .noContext
    else .collage (exportCollage now env photos order)
  else .individual (exportIndividual photos format env)

/-! ### Collage export lemmas -/

theorem collageSettle_width (now total : Nat) (env : ExportEnv) (r : CollageRun) (i : Nat) :
    (collageSettle now total env r i).width = r.width := by
  simp only [collageSettle]
  split_ifs <;> rfl

theorem collageSettle_height (now total : Nat) (env : ExportEnv) (r : CollageRun) (i : Nat) :
    (collageSettle now total env r i).height = r.height := by
  simp only [collageSettle]
  split_ifs <;> rfl

theorem collageSettle_loadedCount (now total : Nat) (env : ExportEnv) (r : CollageRun)
    (i : Nat) (hdraw : env.drawOk i = true) :
    (collageSettle now total env r i).loadedCount = r.loadedCount + 1 := by
  simp only [collageSettle, hdraw]
  split_ifs <;> rfl

theorem collageSettle_loadedCount_le (now total : Nat) (env : ExportEnv)
    (r : CollageRun) (i : Nat) :
    (collageSettle now total env r i).loadedCount ≤ r.loadedCount + 1 := by
  simp only [collageSettle]
  split_ifs <;> simp

theorem collageSettle_downloads_of_ne (now total : Nat) (env : ExportEnv)
    (r : CollageRun) (i : Nat) (h : r.loadedCount + 1 ≠ total) :
    (collageSettle now total env r i).downloads = r.downloads := by
  simp only [collageSettle]
  split_ifs <;> simp_all

theorem collageSettle_last (now total : Nat) (env : ExportEnv) (r : CollageRun)
    (i : Nat) (hct : r.loadedCount + 1 = total) (hdraw : env.drawOk i = true)
    (hexp : env.exportOk = true) :
    (collageSettle now total env r i).downloads =
      r.downloads ++ (if env.outcome i = true then [collageName now] else []) := by
  simp only [collageSettle, hdraw, hexp]
  split_ifs <;> simp_all

theorem foldl_collage_width (now total : Nat) (env : ExportEnv) (l : List Nat)
    (r : CollageRun) :
    (l.foldl (collageSettle now total env) r).width = r.width := by
  induction l generalizing r with
  | nil => rfl
  | cons i l ih => rw [List.foldl_cons, ih, collageSettle_width]

theorem foldl_collage_height (now total : Nat) (env : ExportEnv) (l : List Nat)
    (r : CollageRun) :
    (l.foldl (collageSettle now total env) r).height = r.height := by
  induction l generalizing r with
  | nil => rfl
  | cons i l ih => rw [List.foldl_cons, ih, collageSettle_height]

theorem foldl_collage_loadedCount (now total : Nat) (env : ExportEnv) (l : List Nat)
    (r : CollageRun) (hdraw : ∀ i, env.drawOk i = true) :
    (l.foldl (collageSettle now total env) r).loadedCount = r.loadedCount + l.length := by
  induction l generalizing r with
  | nil => rfl
  | cons i l ih =>
      rw [List.foldl_cons, ih, collageSettle_loadedCount now total env r i (hdraw i)]
      simp only [List.length_cons]
      omega

theorem foldl_collage_downloads_of_lt (now total : Nat) (env : ExportEnv)
    (l : List Nat) (r : CollageRun) (hct : r.loadedCount + l.length < total) :
    (l.foldl (collageSettle now total env) r).downloads = r.downloads := by
  induction l generalizing r with
  | nil => rfl
  | cons i l ih =>
      simp only [List.length_cons] at hct
      rw [List.foldl_cons, ih, collageSettle_downloads_of_ne]
      · omega
      · have := collageSettle_loadedCount_le now total env r i
        omega

/-! ### C4 -/

/-- A sample captured photo. -/
def photo1 : Photo :=
  { id := "1700000000001", dataUrl := "data:image/png;base64,AAAA", timestamp := 1700000000001 }

/-- A second sample captured photo. -/
def photo2 : Photo :=
  { id := "1700000000002", dataUrl := "data:image/png;base64,BBBB", timestamp := 1700000000002 }

/-- An export environment in which every decode fails (every img fires
onerror) and everything else succeeds. -/
def failingDecodeEnv : ExportEnv :=
  { ctxOk := true, outcome := fun _ => false, drawOk := fun _ => true,
    exportOk := true, failDownload := fun _ => false }

/-- An export environment in which everything succeeds. -/
def allOkEnv : ExportEnv :=
  { ctxOk := true, outcome := fun _ => true, drawOk := fun _ => true,
    exportOk := true, failDownload := fun _ => false }

/-- C4 counterexample: a collage export of a single photo whose decode
fails settles all its decodes (loadedCount reaches 1) yet triggers zero
downloads, not exactly one: the onerror handler only logs "Completed with
errors" and never builds the download link. -/
theorem collage_zero_downloads_counterexample :
    exportPhotos 7 failingDecodeEnv [photo1] "pdf" [0] =
        .collage (exportCollage 7 failingDecodeEnv [photo1] [0]) ∧
      (exportCollage 7 failingDecodeEnv [photo1] [0]).loadedCount = 1 ∧
      (exportCollage 7 failingDecodeEnv [photo1] [0]).downloads.length = 0 := by
  refine ⟨rfl, by decide, by decide⟩

/-- C4 amended: for every non-empty photo sequence of length K and every
pattern of per-photo decode outcomes settling in any order (drawing and
link-building themselves succeeding), collage export triggers at most one
download, never triggers one before all K decodes have settled, and
triggers exactly one download precisely when the decode that settles last
succeeds (in particular exactly one when all decodes succeed); when the
last-settling decode fails, zero downloads are triggered. -/
theorem collage_download_after_all_settle (now : Nat) (env : ExportEnv)
    (photos : List Photo) (order : List Nat)
    (hperm : order.Perm (List.range photos.length))
    (hne : photos ≠ [])
    (hctx : env.ctxOk = true)
    (hdraw : ∀ i, env.drawOk i = true)
    (hexp : env.exportOk = true) :
    exportPhotos now env photos "pdf" order =
        .collage (exportCollage now env photos order) ∧
    (exportCollage now env photos order).downloads.length ≤ 1 ∧
    (∀ p q, order = p ++ q → q ≠ [] →
      (p.foldl (collageSettle now photos.length env)
        (collageInit photos.length)).downloads = []) ∧
    (∃ l last, order = l ++ [last] ∧
      (exportCollage now env photos order).downloads =
        (if env.outcome last = true then [collageName now] else [])) := by
  have hK : 0 < photos.length := List.length_pos.mpr hne
  have hlen : order.length = photos.length := by
    rw [hperm.length_eq, List.length_range]
  have hmain : ∃ l last, order = l ++ [last] ∧
      (exportCollage now env photos order).downloads =
        (if env.outcome last = true then [collageName now] else []) := by
    rcases List.eq_nil_or_concat' order with h0 | ⟨l, last, hcat⟩
    · rw [h0] at hlen
      simp at hlen
      omega
    · refine ⟨l, last, hcat, ?_⟩
      have hl : l.length + 1 = photos.length := by
        rw [hcat, List.length_append, List.length_cons, List.length_nil] at hlen
        omega
      rw [exportCollage, hcat, List.foldl_append, List.foldl_cons, List.foldl_nil]
      rw [collageSettle_last _ _ _ _ _ ?hct (hdraw last) hexp, foldl_collage_downloads_of_lt]
      · simp [collageInit]
      · simp only [collageInit]
        omega
      case hct =>
        rw [foldl_collage_loadedCount _ _ _ _ _ hdraw]
        simp only [collageInit]
        omega
  refine ⟨?_, ?_, ?_, hmain⟩
  · have h0 : photos.length ≠ 0 := by omega
    simp [exportPhotos, hctx, h0]
  · obtain ⟨l, last, _, hdl⟩ := hmain
    rw [hdl]
    split_ifs <;> simp
  · intro p q hpq hq
    apply foldl_collage_downloads_of_lt
    have : order.length = p.length + q.length := by
      rw [hpq, List.length_append]
    have hq1 : 0 < q.length := List.length_pos.mpr hq
    simp only [collageInit]
    omega

/-- Witness for C4 at two photos whose decodes settle out of order. -/
theorem collage_download_after_all_settle_witness :
    exportPhotos 7 allOkEnv [photo1, photo2] "pdf" [1, 0] =
        .collage (exportCollage 7 allOkEnv [photo1, photo2] [1, 0]) ∧
    (exportCollage 7 allOkEnv [photo1, photo2] [1, 0]).downloads.length ≤ 1 ∧
    (∀ p q, ([1, 0] : List Nat) = p ++ q → q ≠ [] →
      (p.foldl (collageSettle 7 ([photo1, photo2] : List Photo).length allOkEnv)
        (collageInit ([photo1, photo2] : List Photo).length)).downloads = []) ∧
    (∃ l last, ([1, 0] : List Nat) = l ++ [last] ∧
      (exportCollage 7 allOkEnv [photo1, photo2] [1, 0]).downloads =
        (if allOkEnv.outcome last = true then [collageName 7] else [])) :=
  collage_download_after_all_settle 7 allOkEnv [photo1, photo2] [1, 0]
    (by decide) (by decide) rfl (fun _ => rfl) rfl

/-! ### C7 -/

theorem collageSettle_draws_mono (now total : Nat) (env : ExportEnv) (r : CollageRun)
    (i : Nat) (t : Nat × Nat × Nat) (ht : t ∈ r.draws) :
    t ∈ (collageSettle now total env r i).draws := by
  simp only [collageSettle]
  split_ifs <;> simp_all

theorem collageSettle_draws_shape (now total : Nat) (env : ExportEnv) (r : CollageRun)
    (i : Nat) (hr : ∀ t ∈ r.draws, t.2.1 = cellX t.1 ∧ t.2.2 = cellY t.1) :
    ∀ t ∈ (collageSettle now total env r i).draws,
      t.2.1 = cellX t.1 ∧ t.2.2 = cellY t.1 := by
  simp only [collageSettle]
  split_ifs <;> intro t ht <;>
    first
      | exact hr t ht
      | · simp only [List.mem_append, List.mem_singleton] at ht
          rcases ht with ht | ht
          · exact hr t ht
          · subst ht
            exact ⟨rfl, rfl⟩

theorem collageSettle_draws_self (now total : Nat) (env : ExportEnv) (r : CollageRun)
    (i : Nat) (ho : env.outcome i = true) (hd : env.drawOk i = true) :
    (i, cellX i, cellY i) ∈ (collageSettle now total env r i).draws := by
  simp only [collageSettle, ho, hd]
  split_ifs <;> simp

theorem foldl_collage_draws_mono (now total : Nat) (env : ExportEnv) (l : List Nat)
    (r : CollageRun) (t : Nat × Nat × Nat) (ht : t ∈ r.draws) :
    t ∈ (l.foldl (collageSettle now total env) r).draws := by
  induction l generalizing r with
  | nil => exact ht
  | cons i l ih =>
      exact ih _ (collageSettle_draws_mono now total env r i t ht)

theorem foldl_collage_draws_shape (now total : Nat) (env : ExportEnv) (l : List Nat)
    (r : CollageRun) (hr : ∀ t ∈ r.draws, t.2.1 = cellX t.1 ∧ t.2.2 = cellY t.1) :
    ∀ t ∈ (l.foldl (collageSettle now total env) r).draws,
      t.2.1 = cellX t.1 ∧ t.2.2 = cellY t.1 := by
  induction l generalizing r with
  | nil => exact hr
  | cons i l ih =>
      exact ih _ (collageSettle_draws_shape now total env r i hr)

theorem foldl_collage_draws_mem (now total : Nat) (env : ExportEnv) (l : List Nat)
    (r : CollageRun) (i : Nat) (hi : i ∈ l)
    (ho : env.outcome i = true) (hd : env.drawOk i = true) :
    (i, cellX i, cellY i) ∈ (l.foldl (collageSettle now total env) r).draws := by
  induction l generalizing r with
  | nil => cases hi
  | cons j l ih =>
      rcases List.mem_cons.mp hi with hij | hil
      · subst hij
        exact foldl_collage_draws_mono now total env l _ _
          (collageSettle_draws_self now total env r i ho hd)
      · exact ih _ hil

/-- C7: for every photo sequence (in particular every non-empty one) and
every decode-settling order, the collage canvas is exactly
photosPerRow * photoSize + (photosPerRow + 1) * margin wide and
ceil(n / photosPerRow) * (photoSize + margin) + margin tall (photosPerRow
= 2, photoSize = 300, margin = 20, ceiling division written
(n + photosPerRow - 1) / photosPerRow); every drawImage for photo index i
lands at x = margin + (i % photosPerRow) * (photoSize + margin),
y = margin + (i / photosPerRow) * (photoSize + margin) — row i /
photosPerRow, column i % photosPerRow — and a successfully decoded and
drawn index is indeed drawn there, all independent of the settling order. -/
theorem collage_grid_layout (now : Nat) (env : ExportEnv) (photos : List Photo)
    (order : List Nat) :
    (exportCollage now env photos order).width =
        photosPerRow * photoSize + (photosPerRow + 1) * exportMargin ∧
    (exportCollage now env photos order).height =
        (photos.length + photosPerRow - 1) / photosPerRow * (photoSize + exportMargin)
          + exportMargin ∧
    (∀ i x y, (i, x, y) ∈ (exportCollage now env photos order).draws →
        x = exportMargin + (i % photosPerRow) * (photoSize + exportMargin) ∧
        y = exportMargin + (i / photosPerRow) * (photoSize + exportMargin)) ∧
    (∀ i ∈ order, env.outcome i = true → env.drawOk i = true →
        (i, cellX i, cellY i) ∈ (exportCollage now env photos order).draws) := by
  refine ⟨?_, ?_, ?_, ?_⟩
  · rw [exportCollage, foldl_collage_width]
    rfl
  · rw [exportCollage, foldl_collage_height]
    rfl
  · intro i x y h
    have := foldl_collage_draws_shape now photos.length env order
      (collageInit photos.length) (by simp [collageInit]) (i, x, y) h
    exact this
  · intro i hi ho hd
    exact foldl_collage_draws_mem now photos.length env order _ i hi ho hd

/-- Witness for C7 at two photos settling in reverse order. -/
theorem collage_grid_layout_witness :
    (exportCollage 3 allOkEnv [photo1, photo2] [1, 0]).width =
        photosPerRow * photoSize + (photosPerRow + 1) * exportMargin ∧
    (exportCollage 3 allOkEnv [photo1, photo2] [1, 0]).height =
        (([photo1, photo2] : List Photo).length + photosPerRow - 1) / photosPerRow
          * (photoSize + exportMargin) + exportMargin ∧
    (∀ i x y, (i, x, y) ∈ (exportCollage 3 allOkEnv [photo1, photo2] [1, 0]).draws →
        x = exportMargin + (i % photosPerRow) * (photoSize + exportMargin) ∧
        y = exportMargin + (i / photosPerRow) * (photoSize + exportMargin)) ∧
    (∀ i ∈ ([1, 0] : List Nat), allOkEnv.outcome i = true → allOkEnv.drawOk i = true →
        (i, cellX i, cellY i) ∈ (exportCollage 3 allOkEnv [photo1, photo2] [1, 0]).draws) :=
  collage_grid_layout 3 allOkEnv [photo1, photo2] [1, 0]

/-! ### C5 -/

theorem indivStep_fold_downloads (format : String) (env : ExportEnv) :
    ∀ (l : List Photo) (n : Nat) (r : IndivRun),
      ((l.enumFrom n).foldl (indivStep format env) r).downloads =
        r.downloads ++
          ((l.enumFrom n).filter (fun p => !env.failDownload p.1)).map
            (fun p => (indivName p.1 format, indivHref format p.2))
  | [], n, r => by simp
  | x :: xs, n, r => by
      rw [List.enumFrom_cons, List.foldl_cons, List.filter_cons]
      by_cases h : env.failDownload n = true
      · rw [indivStep_fold_downloads format env xs (n + 1) _]
        simp [indivStep, h]
      · rw [indivStep_fold_downloads format env xs (n + 1) _]
        simp only [Bool.not_eq_true] at h
        simp [indivStep, h]

theorem exportIndividual_downloads (photos : List Photo) (format : String)
    (env : ExportEnv) :
    (exportIndividual photos format env).downloads.map Prod.fst =
      ((List.range photos.length).filter (fun i => !env.failDownload i)).map
        (fun i => indivName i format) := by
  simp only [exportIndividual, List.enum]
  rw [indivStep_fold_downloads format env photos 0]
  rw [List.range_eq_range', ← List.enumFrom_map_fst 0 photos, List.filter_map,
    List.map_map]
  simp [Function.comp_def]

/-- C5: for a non-empty photo sequence and an individual-export format
("png" or "jpeg"), exportPhotos takes the individual branch and the
triggered downloads are exactly one per non-failing photo, in sequence
order, named photo-(index+1).(format); with no failures that is exactly K
downloads named photo-1 .. photo-K, and a failure while exporting photo i
removes only the i-th trigger, every other photo still being exported. -/
theorem individual_export_isolated (now : Nat) (env : ExportEnv)
    (photos : List Photo) (format : String) (order : List Nat)
    (hne : photos ≠ []) (hfmt : format = "png" ∨ format = "jpeg") :
    exportPhotos now env photos format order =
        .individual (exportIndividual photos format env) ∧
    (exportIndividual photos format env).downloads.map Prod.fst =
      ((List.range photos.length).filter (fun i => !env.failDownload i)).map
        (fun i => indivName i format) ∧
    ((∀ i, env.failDownload i = false) →
      (exportIndividual photos format env).downloads.map Prod.fst =
        (List.range photos.length).map (fun i => indivName i format)) ∧
    ((∀ i, env.failDownload i = false) →
      (exportIndividual photos format env).downloads.length = photos.length) ∧
    (∀ i, i < photos.length → env.failDownload i = false →
      indivName i format ∈ (exportIndividual photos format env).downloads.map Prod.fst) := by
  have h0 : photos.length ≠ 0 := by
    have := List.length_pos.mpr hne
    omega
  have hpdf : format ≠ "pdf" := by
    rcases hfmt with h | h <;> subst h <;> decide
  refine ⟨?_, exportIndividual_downloads photos format env, ?_, ?_, ?_⟩
  · simp [exportPhotos, h0, hpdf]
  · intro hok
    rw [exportIndividual_downloads photos format env]
    simp [hok]
  · intro hok
    have hmap := exportIndividual_downloads photos format env
    have : ((exportIndividual photos format env).downloads.map Prod.fst).length =
        (((List.range photos.length).filter (fun i => !env.failDownload i)).map
          (fun i => indivName i format)).length := by rw [hmap]
    simp only [List.length_map] at this
    rw [this]
    simp [hok]
  · intro i hi hfail
    rw [exportIndividual_downloads photos format env]
    simp only [List.mem_map, List.mem_filter, List.mem_range]
    exact ⟨i, ⟨hi, by simp [hfail]⟩, rfl⟩

/-- Witness for C5 at two photos exported as png with no failures. -/
theorem individual_export_isolated_witness :
    exportPhotos 3 allOkEnv [photo1, photo2] "png" [] =
        .individual (exportIndividual [photo1, photo2] "png" allOkEnv) ∧
    (exportIndividual [photo1, photo2] "png" allOkEnv).downloads.map Prod.fst =
      ((List.range ([photo1, photo2] : List Photo).length).filter
          (fun i => !allOkEnv.failDownload i)).map
        (fun i => indivName i "png") ∧
    ((∀ i, allOkEnv.failDownload i = false) →
      (exportIndividual [photo1, photo2] "png" allOkEnv).downloads.map Prod.fst =
        (List.range ([photo1, photo2] : List Photo).length).map
          (fun i => indivName i "png")) ∧
    ((∀ i, allOkEnv.failDownload i = false) →
      (exportIndividual [photo1, photo2] "png" allOkEnv).downloads.length =
        ([photo1, photo2] : List Photo).length) ∧
    (∀ i, i < ([photo1, photo2] : List Photo).length →
      allOkEnv.failDownload i = false →
      indivName i "png" ∈
        (exportIndividual [photo1, photo2] "png" allOkEnv).downloads.map Prod.fst) :=
  individual_export_isolated 3 allOkEnv [photo1, photo2] "png" []
    (by decide) (Or.inl rfl)

/-! ### Camera acquisition (startCamera) -/

/-- How the wait for the video sink to become ready settles: the
loadedmetadata event, the error event, or the 3-second timeout firing
first. -/
inductive ReadySignal where
  | metadata : ReadySignal
  | errorEvent : ReadySignal
  | timeout : ReadySignal

/-- The environment of one startCamera call: whether the video element is
mounted (at entry, and after the 100ms wait), whether getUserMedia exists,
the result of enumerateDevices (none: it threw; some: the device kinds),
the result of each getUserMedia attempt (ideal, basic, minimal
constraints), whether play() succeeds, and how the readiness wait
settles. -/
structure AcqEnv where
  videoPresent : Bool
  videoPresentAfterWait : Bool
  mediaSupported : Bool
  enumerate : Option (List String)
  attempt1 : Except String MediaStream
  attempt2 : Except String MediaStream
  attempt3 : Except String MediaStream
  playOk : Bool
  ready : ReadySignal

/-- Whether pat is a prefix of some suffix of l. -/
def substrAux (pat : List Char) : List Char → Bool
  | [] => pat.isPrefixOf ([] : List Char)
  | c :: rest => pat.isPrefixOf (c :: rest) || substrAux pat rest

/-- Whether pat occurs inside msg, as String.prototype.includes does. -/
def containsSubstr (msg pat : String) : Bool :=
  substrAux pat.data msg.data

/-- The error-message classification chain of the catch handler of
startCamera. -/
def classifyError (msg : String) : String :=
  if containsSubstr msg "Permission denied" || containsSubstr msg "NotAllowedError" then
    "Camera permission denied. Please allow camera access and try again."
  else if containsSubstr msg "NotFoundError" || containsSubstr msg "No camera devices" then
    "No camera found. Please connect a camera device."
  else if containsSubstr msg "NotSupportedError" then
    "Camera not supported in this browser. Try Chrome, Firefox, or Safari."
  else if containsSubstr msg "getUserMedia is not supported" then
    "Camera access not supported. Please use HTTPS or a modern browser."
  else if containsSubstr msg "Video element not found" then
    "Camera interface not ready. Please try again in a moment."
  else
    "Camera error: " ++ msg

/-- The catch handler of startCamera: log the raw message, surface the
classified message in the error slot, stop and drop any held stream, and
(the finally block) clear the loading flag. -/
def startCameraFail (now : Nat) (msg : String) (s : AppState) : AppState :=
  let s := { s with debugInfo := addDebugInfo now ("Camera error: " ++ msg) s.debugInfo }
  let s := { s with error := classifyError msg }
  let s :=
    match s.streamRef with
    | some _ => { s with streamRef := none }
    | none => s
  { s with isLoading := false }

/-- The tail of startCamera once some getUserMedia attempt granted a
stream: attach it to the sink and the ref, auto-play (an error there only
logs), then wait for readiness.  captured is the isStreaming value the
3-second timeout closure read at render time: when the timeout fires first
and captured is false the feed is assumed usable (success by default);
when captured is true the promise never settles, modelled as none. -/
def startCameraWithStream (now : Nat) (env : AcqEnv) (captured : Bool)
    (stream : MediaStream) (s : AppState) : Option AppState :=
  let s := { s with videoSrc := some stream, streamRef := some stream,
                    debugInfo := addDebugInfo now "Stream assigned to video element" s.debugInfo }
  let s :=
    if env.playOk then s
    else { s with debugInfo := addDebugInfo now "Video play error: error" s.debugInfo }
  match env.ready with
  | .metadata =>
      let s := { s with debugInfo := addDebugInfo now "Video metadata loaded" s.debugInfo,
                        isStreaming := true }
      some { s with debugInfo := addDebugInfo now "Camera started successfully" s.debugInfo,
                    isLoading := false }
  | .errorEvent =>
      let s := { s with debugInfo := addDebugInfo now "Video error: event" s.debugInfo }
      some (startCameraFail now "Video failed to load" s)
  | .timeout =>
      let s := { s with debugInfo := addDebugInfo now "Checking timeout condition" s.debugInfo }
      if captured = false then
        let s := { s with debugInfo := addDebugInfo now "Video loading timeout, assuming success" s.debugInfo,
                          isStreaming := true }
        some { s with debugInfo := addDebugInfo now "Camera started successfully" s.debugInfo,
                      isLoading := false }
      else
        none

/-- startCamera: set loading, clear the error slot, check the video element
(waiting once for mount), check getUserMedia support, enumerate devices (a
throw there — including the explicit zero-device throw — is swallowed by
the inner catch and acquisition proceeds anyway), then try the three
constraint sets most to least specific, the first success short-circuiting;
an exhausted chain or a support/mount failure goes to the catch handler. -/
def startCamera (now : Nat) (env : AcqEnv) (s0 : AppState) : Option AppState :=
  let captured := s0.isStreaming
  let s := { s0 with isLoading := true, error := "",
                     debugInfo := addDebugInfo now "Starting camera..." s0.debugInfo }
  if env.videoPresent = false ∧ env.videoPresentAfterWait = false then
    some (startCameraFail now "Video element not found after waiting"
      { s with debugInfo := addDebugInfo now "Video element not found - waiting for mount" s.debugInfo })
  else
    let s :=
      if env.videoPresent then s
      else { s with debugInfo := addDebugInfo now "Video element not found - waiting for mount" s.debugInfo }
    let s := { s with debugInfo := addDebugInfo now "Video element found and captured" s.debugInfo }
    if env.mediaSupported = false then
      some (startCameraFail now "getUserMedia is not supported in this browser" s)
    else
      let s := { s with debugInfo := addDebugInfo now "getUserMedia is supported" s.debugInfo }
      let s :=
        match env.enumerate with
        | some kinds =>
            let vids := kinds.filter (fun k => k == "videoinput")
            let foundMsg := "Found " ++ toString vids.length ++ " video devices"
            let s := { s with debugInfo := addDebugInfo now foundMsg s.debugInfo }
            if vids.length = 0 then
              { s with debugInfo := addDebugInfo now "Could not enumerate devices, proceeding anyway" s.debugInfo }
            else s
        | none =>
            { s with debugInfo := addDebugInfo now "Could not enumerate devices, proceeding anyway" s.debugInfo }
      match env.attempt1 with
      | .ok stream =>
          startCameraWithStream now env captured stream
            { s with debugInfo := addDebugInfo now "Camera access granted with ideal constraints" s.debugInfo }
      | .error e1 =>
          let failMsg1 := "Ideal constraints failed: " ++ e1 ++ ", trying basic constraints"
          let s := { s with debugInfo := addDebugInfo now failMsg1 s.debugInfo }
          match env.attempt2 with
          | .ok stream =>
              startCameraWithStream now env captured stream
                { s with debugInfo := addDebugInfo now "Camera access granted with basic constraints" s.debugInfo }
          | .error e2 =>
              let failMsg2 := "Basic constraints failed: " ++ e2 ++ ", trying minimal constraints"
              let s := { s with debugInfo := addDebugInfo now failMsg2 s.debugInfo }
              match env.attempt3 with
              | .ok stream =>
                  startCameraWithStream now env captured stream
                    { s with debugInfo := addDebugInfo now "Camera access granted with minimal constraints" s.debugInfo }
              | .error e3 => some (startCameraFail now e3 s)

/-! ### C6 -/

theorem startCameraWithStream_metadata (now : Nat) (env : AcqEnv) (captured : Bool)
    (stream : MediaStream) (s : AppState) (hready : env.ready = .metadata)
    (herr : s.error = "") :
    ∃ s', startCameraWithStream now env captured stream s = some s' ∧
      s'.streamRef = some stream ∧ s'.videoSrc = some stream ∧
      s'.isStreaming = true ∧ s'.error = "" ∧ s'.isLoading = false := by
  simp only [startCameraWithStream, hready]
  cases env.playOk <;> exact ⟨_, rfl, rfl, rfl, rfl, herr, rfl⟩

/-- C6: whenever the ideal-constraints attempt fails (with any recoverable
constraint error) and the basic-constraints attempt succeeds — the video
element being mounted, getUserMedia supported, and the sink signalling
ready — startCamera succeeds via the second attempt: the granted stream is
held and attached, streaming is on, loading is off, and the user-visible
error slot stays empty. -/
theorem acquisition_fallback_second_attempt (now : Nat) (env : AcqEnv)
    (s : AppState) (e1 : String) (st : MediaStream)
    (hv : env.videoPresent = true)
    (hm : env.mediaSupported = true)
    (h1 : env.attempt1 = .error e1)
    (h2 : env.attempt2 = .ok st)
    (hready : env.ready = .metadata) :
    ∃ s', startCamera now env s = some s' ∧
      s'.streamRef = some st ∧ s'.videoSrc = some st ∧
      s'.isStreaming = true ∧ s'.error = "" ∧ s'.isLoading = false := by
  simp only [startCamera, hv, hm, h1, h2]
  rw [if_neg (by simp), if_neg (by simp)]
  cases henum : env.enumerate with
  | none =>
      exact startCameraWithStream_metadata now env s.isStreaming st _ hready (by simp)
  | some kinds =>
      by_cases hz : (kinds.filter (fun k => k == "videoinput")).length = 0 <;>
        exact startCameraWithStream_metadata now env s.isStreaming st _ hready
          (by simp [hz])

/-- An environment in which the ideal-constraints attempt is rejected and
the basic-constraints attempt grants a stream. -/
def fallbackEnv : AcqEnv :=
  { videoPresent := true, videoPresentAfterWait := true, mediaSupported := true,
    enumerate := some ["videoinput"],
    attempt1 := .error "OverconstrainedError",
    attempt2 := .ok ["video"],
    attempt3 := .error "unused", playOk := true, ready := .metadata }

/-- Witness for C6 in a concrete fallback environment. -/
theorem acquisition_fallback_second_attempt_witness :
    ∃ s', startCamera 2 fallbackEnv initialState = some s' ∧
      s'.streamRef = some ["video"] ∧ s'.videoSrc = some ["video"] ∧
      s'.isStreaming = true ∧ s'.error = "" ∧ s'.isLoading = false :=
  acquisition_fallback_second_attempt 2 fallbackEnv initialState
    "OverconstrainedError" ["video"] rfl rfl rfl rfl rfl

/-! ### Injectivity of the decimal rendering used for photo ids

The photo id is Date.now().toString(), the decimal rendering of the
millisecond clock; distinct clock values give distinct ids because the
rendering is injective.  The following mirrors Nat.toDigitsCore without
its fuel and proves the rendering invertible. -/

/-- The fuel-free core of the base-10 rendering: emit digits of n in front
of the accumulator, least significant first into the accumulator. -/
def decCharsAux (n : Nat) (ds : List Char) : List Char :=
  let d := Nat.digitChar (n % 10)
  if n / 10 = 0 then d :: ds
  else decCharsAux (n / 10) (d :: ds)
termination_by n
decreasing_by
  simp_wf
  omega

theorem toDigitsCore_eq_decCharsAux :
    ∀ (fuel n : Nat) (ds : List Char), n < fuel →
      Nat.toDigitsCore 10 fuel n ds = decCharsAux n ds := by
  intro fuel
  induction fuel with
  | zero => intro n ds h; omega
  | succ fuel ih =>
      intro n ds h
      rw [Nat.toDigitsCore, decCharsAux]
      by_cases h0 : n / 10 = 0
      · simp [h0]
      · simp only [h0, if_false]
        exact ih (n / 10) _ (by omega)

theorem toDigits_eq_decCharsAux (n : Nat) :
    Nat.toDigits 10 n = decCharsAux n [] :=
  toDigitsCore_eq_decCharsAux (n + 1) n [] (by omega)

theorem decCharsAux_acc (n : Nat) (ds : List Char) :
    decCharsAux n ds = decCharsAux n [] ++ ds := by
  induction n using Nat.strong_induction_on generalizing ds with
  | _ n ih =>
      conv_lhs => rw [decCharsAux]
      conv_rhs => rw [decCharsAux]
      by_cases h0 : n / 10 = 0
      · simp [h0]
      · simp only [h0, if_false]
        rw [ih (n / 10) (by omega) (Nat.digitChar (n % 10) :: ds),
          ih (n / 10) (by omega) [Nat.digitChar (n % 10)]]
        simp

/-- Read a digit list back as a number (each digit char decoded from its
code point). -/
def valOfDigits (l : List Char) : Nat :=
  l.foldl (fun acc c => acc * 10 + (c.toNat - 48)) 0

theorem digitChar_decode (d : Nat) (h : d < 10) :
    (Nat.digitChar d).toNat - 48 = d := by
  interval_cases d <;> decide

theorem valOfDigits_concat (l : List Char) (c : Char) :
    valOfDigits (l ++ [c]) = valOfDigits l * 10 + (c.toNat - 48) := by
  simp [valOfDigits, List.foldl_append]

theorem valOfDigits_decCharsAux (n : Nat) :
    valOfDigits (decCharsAux n []) = n := by
  induction n using Nat.strong_induction_on with
  | _ n ih =>
      rw [decCharsAux]
      by_cases h0 : n / 10 = 0
      · simp only [h0, if_true]
        have hm : n % 10 < 10 := Nat.mod_lt _ (by omega)
        have : valOfDigits [Nat.digitChar (n % 10)] = n % 10 := by
          simp [valOfDigits, digitChar_decode _ hm]
        rw [this]
        omega
      · simp only [h0, if_false]
        rw [decCharsAux_acc, valOfDigits_concat, ih (n / 10) (by omega)]
        have hm : n % 10 < 10 := Nat.mod_lt _ (by omega)
        rw [digitChar_decode _ hm]
        omega

theorem natRepr_injective (m n : Nat) (h : Nat.repr m = Nat.repr n) : m = n := by
  have hdata : Nat.toDigits 10 m = Nat.toDigits 10 n := by
    have := congrArg String.data h
    simpa [Nat.repr] using this
  rw [toDigits_eq_decCharsAux, toDigits_eq_decCharsAux] at hdata
  calc m = valOfDigits (decCharsAux m []) := (valOfDigits_decCharsAux m).symm
    _ = valOfDigits (decCharsAux n []) := by rw [hdata]
    _ = n := valOfDigits_decCharsAux n

theorem natToString_injective (m n : Nat) (h : (toString m : String) = toString n) :
    m = n :=
  natRepr_injective m n h

/-! ### C8 -/

/-- The clock values at which the countdown interval fires along an event
sequence (the instants at which captures can happen). -/
def tickTimes (evs : List Ev) : List Nat :=
  evs.filterMap (fun e => match e with | .tick env => some env.now | _ => none)

theorem takePhotoClick_photos (s : AppState) :
    (takePhotoClick s).photos = s.photos := by
  simp only [takePhotoClick, startCountdown]
  split_ifs <;> rfl

theorem resetSession_photos (now : Nat) (s : AppState) :
    (resetSession now s).photos = [] := by
  simp only [resetSession, stopCamera]
  cases s.streamRef <;> simp

theorem capturePhoto_photos_cases (env : CaptureEnv) (s : AppState) :
    (capturePhoto env s).photos = s.photos ∨
      (capturePhoto env s).photos = s.photos ++
        [{ id := toString env.now, dataUrl := env.frameData, timestamp := env.now }] := by
  simp only [capturePhoto]
  split_ifs <;> simp

theorem tickStep_photos_cases (env : CaptureEnv) (s : AppState) :
    (tickStep env s).photos = s.photos ∨
      (tickStep env s).photos = s.photos ++
        [{ id := toString env.now, dataUrl := env.frameData, timestamp := env.now }] := by
  simp only [tickStep]
  cases s.countdownTimer with
  | none => exact Or.inl rfl
  | some c =>
      simp only []
      split_ifs with h
      · exact capturePhoto_photos_cases env _
      · exact Or.inl rfl

/-- The invariant the session maintains on its photo sequence: capture
timestamps strictly increase along the sequence and every id is the
decimal rendering of its timestamp. -/
def GoodPhotos (l : List Photo) : Prop :=
  l.Pairwise (fun p q => p.timestamp < q.timestamp) ∧
    ∀ p ∈ l, p.id = toString p.timestamp

theorem run_good_photos (evs : List Ev) (s : AppState)
    (hg : GoodPhotos s.photos)
    (hbound : ∀ p ∈ s.photos, ∀ t ∈ tickTimes evs, p.timestamp < t)
    (htimes : (tickTimes evs).Pairwise (· < ·)) :
    GoodPhotos (run evs s).photos := by
  induction evs generalizing s with
  | nil => exact hg
  | cons e evs ih =>
      rw [run_cons]
      cases e with
      | click =>
          refine ih _ ?_ ?_ htimes
          · show GoodPhotos (takePhotoClick s).photos
            rw [takePhotoClick_photos]
            exact hg
          · show ∀ p ∈ (takePhotoClick s).photos, _
            rw [takePhotoClick_photos]
            exact hbound
      | reset now =>
          refine ih _ ?_ ?_ htimes
          · show GoodPhotos (resetSession now s).photos
            rw [resetSession_photos]
            exact ⟨List.Pairwise.nil, by simp⟩
          · show ∀ p ∈ (resetSession now s).photos, _
            rw [resetSession_photos]
            simp
      | tick env =>
          have hcons : tickTimes (Ev.tick env :: evs) = env.now :: tickTimes evs := rfl
          rw [hcons] at hbound htimes
          rw [List.pairwise_cons] at htimes
          obtain ⟨hfut, htail⟩ := htimes
          have hnow : ∀ p ∈ s.photos, p.timestamp < env.now :=
            fun p hp => hbound p hp env.now (List.mem_cons_self _ _)
          have hrest : ∀ p ∈ s.photos, ∀ t ∈ tickTimes evs, p.timestamp < t :=
            fun p hp t ht => hbound p hp t (List.mem_cons_of_mem _ ht)
          rcases tickStep_photos_cases env s with hp | hp
          · refine ih _ ?_ ?_ htail
            · show GoodPhotos (tickStep env s).photos
              rw [hp]
              exact hg
            · show ∀ p ∈ (tickStep env s).photos, _
              rw [hp]
              exact hrest
          · refine ih _ ?_ ?_ htail
            · show GoodPhotos (tickStep env s).photos
              rw [hp]
              constructor
              · rw [List.pairwise_append]
                refine ⟨hg.1, by simp, ?_⟩
                intro a ha b hb
                simp only [List.mem_singleton] at hb
                subst hb
                exact hnow a ha
              · intro p hpm
                rcases List.mem_append.mp hpm with hque | hque
                · exact hg.2 p hque
                · simp only [List.mem_singleton] at hque
                  subst hque
                  rfl
            · show ∀ p ∈ (tickStep env s).photos, _
              rw [hp]
              intro p hpm t ht
              rcases List.mem_append.mp hpm with hque | hque
              · exact hrest p hque t ht
              · simp only [List.mem_singleton] at hque
                subst hque
                exact hfut t ht

theorem pairwise_ids_of_good : ∀ (l : List Photo),
    l.Pairwise (fun p q => p.timestamp < q.timestamp) →
    (∀ p ∈ l, p.id = toString p.timestamp) →
    l.Pairwise (fun p q => p.id ≠ q.id ∧ p.timestamp < q.timestamp)
  | [], _, _ => List.Pairwise.nil
  | p :: l, hpw, hid => by
      rw [List.pairwise_cons] at hpw ⊢
      refine ⟨fun q hq => ⟨?_, hpw.1 q hq⟩,
        pairwise_ids_of_good l hpw.2 (fun q hq => hid q (List.mem_cons_of_mem _ hq))⟩
      intro heq
      have h1 : p.id = toString p.timestamp := hid p (List.mem_cons_self _ _)
      have h2 : q.id = toString q.timestamp := hid q (List.mem_cons_of_mem _ hq)
      have h3 : p.timestamp = q.timestamp := by
        refine natToString_injective p.timestamp q.timestamp ?_
        rw [← h1, ← h2]
        exact heq
      have h4 := hpw.1 q hq
      omega

/-- C8: along every session run starting with an empty photo sequence, as
long as the wall clock strictly advances across countdown firings (which
the 1-second tick cadence guarantees), any two distinct photos of the
sequence have distinct ids, and the ids — decimal renderings of the
capture clock — are assigned strictly monotonically in capture order: a
later photo always has a larger capture timestamp and hence never a
smaller identifier. -/
theorem photo_ids_unique_monotone (evs : List Ev) (s : AppState)
    (h0 : s.photos = [])
    (htimes : (tickTimes evs).Pairwise (· < ·)) :
    (run evs s).photos.Pairwise
      (fun p q => p.id ≠ q.id ∧ p.timestamp < q.timestamp) := by
  have hg : GoodPhotos (run evs s).photos := by
    refine run_good_photos evs s ?_ ?_ htimes
    · rw [h0]
      exact ⟨List.Pairwise.nil, by simp⟩
    · rw [h0]
      simp
  exact pairwise_ids_of_good _ hg.1 hg.2

/-- The capture environment of a countdown firing at clock value t. -/
def captureEnvAt (t : Nat) : CaptureEnv :=
  { now := t, videoPresent := true, canvasPresent := true, ctxOk := true,
    drawOk := true, frameData := "data:image/png;base64,AAAA" }

/-- Witness for C8 along a run that captures once via a full countdown. -/
theorem photo_ids_unique_monotone_witness :
    (run [Ev.click, Ev.tick (captureEnvAt 5), Ev.tick (captureEnvAt 6),
        Ev.tick (captureEnvAt 7)] initialState).photos.Pairwise
      (fun p q => p.id ≠ q.id ∧ p.timestamp < q.timestamp) :=
  photo_ids_unique_monotone
    [Ev.click, Ev.tick (captureEnvAt 5), Ev.tick (captureEnvAt 6),
      Ev.tick (captureEnvAt 7)] initialState rfl (by decide)

end Photobooth
